import Mathlib

/-!
Verification of the segmented file-output sink of `src/output/file.rs`.

The Rust module is shallowly embedded: the filesystem, clock and logger are
explicit state (`World`, a timestamp argument, a log list), `u64` arithmetic
is `Nat` with explicit `% 2 ^ 64` where the source uses a plain add and
`min _ U64MAX` where it uses `saturating_add`, and fallible operations
return an explicit result type.  The unbounded `loop` in
`create_segment_file` is given fuel `2 ^ 64`: since the `attempt` counter
saturates at `u64::MAX`, after `2 ^ 64` colliding iterations the loop's
candidate path is fixed forever, so exhausting this fuel (`none`)
corresponds exactly to the Rust loop never terminating.
-/

namespace OutputFile

/-- Decimal digit character, as produced by Rust integer formatting. -/
def digitCh (d : Nat) : Char := Char.ofNat (48 + d)

/-- Decimal digits of `n`, most significant first (fuel-based recursion;
fuel `n + 1` always suffices since the recursion divides by 10). -/
def natDigitsAux : Nat → Nat → List Char
  | 0, _ => []
  | f + 1, n => if n < 10 then [digitCh n] else natDigitsAux f (n / 10) ++ [digitCh (n % 10)]

/-- Decimal representation of a natural number, as Rust `format!` prints it. -/
def natDigits (n : Nat) : List Char := natDigitsAux (n + 1) n

/-- Models the Rust format specifier used at file.rs line 134 for the
segment index: decimal, zero-padded on the left to a minimum width of 5. -/
def pad5 (n : Nat) : String := ⟨List.replicate (5 - (natDigits n).length) '0' ++ natDigits n⟩

/-! ## Model of `std::path` (Unix, UTF-8 paths)

Only the operations the source uses are modelled: `file_name`, `file_stem`,
`extension`, `parent` and `join`.  Paths are plain strings; components are
the non-empty `/`-separated segments with `.` segments normalized away
(kept only as a leading current-directory marker of a relative path),
matching how `std::path::Components` parses a Unix path. -/

/-- Splits a character list at every `/`. -/
def splitSlash : List Char → List (List Char)
  | [] => [[]]
  | c :: t =>
    if c = '/' then [] :: splitSlash t
    else
      match splitSlash t with
      | [] => [[c]]
      | h :: r => (c :: h) :: r

/-- Non-empty raw segments of a path string. -/
def rawSegs (s : String) : List (List Char) := (splitSlash s.data).filter (fun c => !c.isEmpty)

/-- Whether the path is absolute (has a root component). -/
def isAbs (s : String) : Bool :=
  match s.data with
  | '/' :: _ => true
  | _ => false

/-- Whether the path starts with a current-directory `.` component
(only relative paths keep it, as in `std::path::Components`). -/
def leadCur (s : String) : Bool := !isAbs s && ((rawSegs s).head? == some ['.'])

/-- Normalized components (normal names and `..`), root and leading `.`
excluded. -/
def comps (s : String) : List (List Char) := (rawSegs s).filter (fun c => c != ['.'])

/-- Models `Path::file_name`: the final component, unless it is `..`. -/
def fileName (s : String) : Option String :=
  match (comps s).getLast? with
  | some c => if c = ['.', '.'] then none else some ⟨c⟩
  | none => none

/-- Splits a character list at its last `.`, if any. -/
def lastDotSplit : List Char → Option (List Char × List Char)
  | [] => none
  | c :: t =>
    match lastDotSplit t with
    | some (p, q) => some (c :: p, q)
    | none => if c = '.' then some ([], t) else none

/-- The stem of a file name: everything before the last `.`, except that a
name whose only `.` is leading (a dotfile) is its own stem. -/
def stemOfName (n : List Char) : List Char :=
  match lastDotSplit n with
  | some (p, _) => if p = [] then n else p
  | none => n

/-- The extension of a file name: everything after the last `.`, none for a
dotfile or a name without a `.`. -/
def extOfName (n : List Char) : Option (List Char) :=
  match lastDotSplit n with
  | some (p, q) => if p = [] then none else some q
  | none => none

/-- Models `Path::file_stem`. -/
def fileStem (s : String) : Option String := (fileName s).map (fun n => ⟨stemOfName n.data⟩)

/-- Models `Path::extension`. -/
def extension (s : String) : Option String :=
  (fileName s).bind (fun n => (extOfName n.data).map (fun l => (⟨l⟩ : String)))

/-- Joins normalized components with `/`. -/
def joinSegs : List (List Char) → List Char
  | [] => []
  | [c] => c
  | c :: r => c ++ '/' :: joinSegs r

/-- Renders a parsed path back to a string. -/
def renderPath (abs cur : Bool) (segs : List (List Char)) : String :=
  if abs then ⟨'/' :: joinSegs segs⟩
  else if cur then (if segs = [] then "." else ⟨'.' :: '/' :: joinSegs segs⟩)
  else ⟨joinSegs segs⟩

/-- Models `Path::parent`: none for the empty path and the root, otherwise
the path with its last component removed (`Some("")` for a bare name). -/
def parent (s : String) : Option String :=
  match comps s with
  | [] => if leadCur s then some "" else none
  | l => some (renderPath (isAbs s) (leadCur s) l.dropLast)

/-- Models `Path::join` for a relative file name argument. -/
def pathJoin (p f : String) : String :=
  if p.data.getLast? = some '/' then p ++ f else p ++ "/" ++ f

/-! ## Model of `std::io` / `std::fs`

The world carries the file store plus injected per-path failures standing
for the OS error of each primitive, and the emitted log lines. -/

/-- The `std::io::ErrorKind` values the model distinguishes. -/
inductive ErrorKind where
  | alreadyExists
  | permissionDenied
  | notFound
  | storageFull
  | interrupted
  | other
  deriving DecidableEq, Repr

/-- Models `std::io::Error` by its kind. -/
structure IoError where
  kind : ErrorKind
  deriving DecidableEq, Repr

/-- An open `std::fs::File` handle, identified by the path it was created at. -/
structure FsFile where
  path : String
  deriving DecidableEq, Repr

/-- Log levels used by the module. -/
inductive LogLevel where
  | info
  | debug
  deriving DecidableEq, Repr

/-- The external world: file store, injected OS failures, log. -/
structure World where
  files : List (String × List Nat)
  createFail : String → Option ErrorKind
  writeFail : String → Option ErrorKind
  log : List (LogLevel × String)

/-- Contents of the file at `p`, if it exists. -/
def lookupFile (w : World) (p : String) : Option (List Nat) :=
  (w.files.find? (fun e => e.1 == p)).map (fun e => e.2)

/-- Replaces or inserts the entry for `p`. -/
def setFileList : List (String × List Nat) → String → List Nat → List (String × List Nat)
  | [], p, d => [(p, d)]
  | (q, v) :: t, p, d => if q = p then (p, d) :: t else (q, v) :: setFileList t p d

/-- World with the file at `p` set to contents `d`. -/
def setFile (w : World) (p : String) (d : List Nat) : World :=
  { w with files := setFileList w.files p d }

/-- World with one log line appended. -/
def logLine (w : World) (lvl : LogLevel) (msg : String) : World :=
  { w with log := w.log ++ [(lvl, msg)] }

/-- Models `fs::File::create` (`overwrite = true`: create or truncate) and
`fs::File::create_new` (`overwrite = false`: exclusive create, failing with
kind `AlreadyExists` if the path exists).  An injected failure for the path
is returned first, standing for any other OS outcome. -/
def fsCreate (overwrite : Bool) (p : String) (w : World) : Except IoError (FsFile × World) :=
  match w.createFail p with
  | some k => .error ⟨k⟩
  | none =>
    if !overwrite && (lookupFile w p).isSome then .error ⟨.alreadyExists⟩
    else .ok (⟨p⟩, setFile w p [])

/-- Models `io::Write::write_all` on an open handle. -/
def fsWriteAll (f : FsFile) (buf : List Nat) (w : World) : Except IoError World :=
  match w.writeFail f.path with
  | some k => .error ⟨k⟩
  | none => .ok (setFile w f.path ((lookupFile w f.path).getD [] ++ buf))

/-- Models `io::Write::flush` on an open `fs::File` handle.  The std
implementation is unconditionally `Ok(())` on every platform — an
`fs::File` holds no userspace buffer, so there is nothing that can fail —
hence no injected failure: the result is always `Ok` with the world
untouched.  (The `io::Result` type is kept so the `?` in the source's
`flush` keeps its shape.) -/
def fsFlush (_ : FsFile) (w : World) : Except IoError World := .ok w

/-- Outcome of a Rust call: a value, a propagated `io::Error`, or a panic
(`unreachable!` / `expect`). -/
inductive RustResult (α : Type) where
  | ok : α → RustResult α
  | err : IoError → RustResult α
  | panicked : RustResult α
  deriving DecidableEq, Repr

/-- Largest `u64` value. -/
def U64MAX : Nat := 2 ^ 64 - 1

/-- Models `u64::saturating_add 1` composed after a `Nat` increment. -/
def usat (n : Nat) : Nat := min n U64MAX

/-! ## The sink itself, translated from `src/output/file.rs` -/

/-- The `Args` struct (command-line configuration). -/
structure Args where
  path : Option String
  overwrite : Bool

/-- The `File` struct: the segmented file sink. -/
structure File where
  base_path : String
  channel : String
  overwrite : Bool
  header : Option (List Nat)
  current : Option FsFile
  segment_index : Nat

/-- Translation of `File::split_stem_ext` (file.rs lines 149-164). -/
def split_stem_ext (p : String) : String × String :=
  let stem := (((fileStem p).orElse (fun _ => fileName p)).filter (fun s => !s.isEmpty)).getD
    "recording"
  let ext := ((extension p).filter (fun e => !e.isEmpty)).getD "ts"
  (stem, ext)

/-- Translation of `File::segment_path` (file.rs lines 132-147). -/
def File.segment_path (s : File) (timestamp : String) (index : Nat) : String :=
  let se := split_stem_ext s.base_path
  let filename := se.1 ++ "_" ++ s.channel ++ "_" ++ timestamp ++ "_" ++ pad5 index ++ "." ++ se.2
  match (parent s.base_path).filter (fun p => !p.isEmpty) with
  | some par => pathJoin par filename
  | none => filename

/-- The `loop` body of `File::create_segment_file` (file.rs lines 98-129),
with explicit fuel.  `index` is the `u64` sum `segment_index + attempt`
(wrapping, line 99); on success `segment_index` becomes
`index.saturating_add(1)` (line 120); a non-overwrite `AlreadyExists`
failure retries with `attempt.saturating_add(1)` (line 124) and the same
timestamp; any other error propagates with the sink state unchanged. -/
def createLoop : Nat → File → World → String → Nat → Option (RustResult FsFile × File × World)
  | 0, _, _, _, _ => none
  | fuel + 1, s, w, ts, attempt =>
    let index := (s.segment_index + attempt) % 2 ^ 64
    let path := s.segment_path ts index
    match fsCreate s.overwrite path w with
    | .ok (file, w1) =>
      match s.header with
      | some h =>
        match fsWriteAll file h w1 with
        | .error e => some (.err e, s, w1)
        | .ok w2 =>
          some (.ok file, { s with segment_index := usat (index + 1) },
            logLine w2 (if s.segment_index == 0 && attempt == 0 then .info else .debug)
              ("Recording to: " ++ path))
      | none =>
        some (.ok file, { s with segment_index := usat (index + 1) },
          logLine w1 (if s.segment_index == 0 && attempt == 0 then .info else .debug)
            ("Recording to: " ++ path))
    | .error e =>
      if !s.overwrite && e.kind == .alreadyExists then
        createLoop fuel s w ts (usat (attempt + 1))
      else some (.err e, s, w)

/-- Translation of `File::create_segment_file` (file.rs lines 94-130); the
timestamp, sampled once before the loop in Rust, is an explicit argument. -/
def File.create_segment_file (s : File) (w : World) (ts : String) :
    Option (RustResult FsFile × File × World) :=
  createLoop (2 ^ 64) s w ts 0

/-- Translation of `File::ensure_file` (file.rs lines 85-92). -/
def File.ensure_file (s : File) (w : World) (ts : String) :
    Option (RustResult Unit × File × World) :=
  match s.current with
  | some _ => some (.ok (), s, w)
  | none =>
    match s.create_segment_file w ts with
    | none => none
    | some (.ok f, s', w') => some (.ok (), { s' with current := some f }, w')
    | some (.err e, s', w') => some (.err e, s', w')
    | some (.panicked, s', w') => some (.panicked, s', w')

/-- Translation of `Write::write_all` for `File` (file.rs lines 58-64); the
`expect "File handle missing after ensure_file"` is the `panicked` case. -/
def File.write_all (s : File) (w : World) (ts : String) (buf : List Nat) :
    Option (RustResult Unit × File × World) :=
  match s.ensure_file w ts with
  | none => none
  | some (.ok _, s', w') =>
    match s'.current with
    | none => some (.panicked, s', w')
    | some f =>
      match fsWriteAll f buf w' with
      | .error e => some (.err e, s', w')
      | .ok w2 => some (.ok (), s', w2)
  | some (.err e, s', w') => some (.err e, s', w')
  | some (.panicked, s', w') => some (.panicked, s', w')

/-- Translation of `Write::flush` for `File` (file.rs lines 49-56).  Note
the `?` on `file.flush()`: on an OS flush error the function returns early
and `current` is left untouched. -/
def File.flush (s : File) (w : World) : RustResult Unit × File × World :=
  match s.current with
  | some f =>
    match fsFlush f w with
    | .error e => (.err e, s, w)
    | .ok w' => (.ok (), { s with current := none }, w')
  | none => (.ok (), { s with current := none }, w)

/-- Translation of `Write::write` for `File` (file.rs lines 45-47): the
body is `unreachable!()`, a guaranteed panic. -/
def File.write (_ : File) (_ : List Nat) : RustResult Nat := .panicked

/-- Translation of `Output::set_header` for `File` (file.rs lines 38-41). -/
def File.set_header (s : File) (h : List Nat) : RustResult Unit × File :=
  (.ok (), { s with header := some h })

/-- Translation of `File::new` (file.rs lines 68-83); the `anyhow::Result`
never fails, so the result is the optional sink plus the logging effect. -/
def File.new (args : Args) (channel : String) (w : World) : Option File × World :=
  match args.path with
  | none => (none, w)
  | some p =>
    (some { base_path := p, channel := channel, overwrite := args.overwrite,
            header := none, current := none, segment_index := 0 },
     logLine w .info ("Recording segments to: " ++ p))

/-- Written from the spec's words: the base path's filename without its
final extension, defaulting to the literal "recording" when absent or
empty. -/
def specStem (base : String) : String :=
  match fileStem base with
  | some st => if st.isEmpty then "recording" else st
  | none => "recording"

/-- Written from the spec's words: the base path's final extension,
defaulting to "ts" when absent or empty. -/
def specExt (base : String) : String :=
  match extension base with
  | some e => if e.isEmpty then "ts" else e
  | none => "ts"

/-- Written from the spec's filename-derivation words (spec section 4.2):
the name is stem, channel, timestamp and the 5-zero-padded index joined by
underscores with the ext suffix; it is placed in the base path's parent
directory when that is non-empty, otherwise used bare (current working
directory). -/
def specSegmentPath (base channel ts : String) (index : Nat) : String :=
  let name :=
    specStem base ++ "_" ++ channel ++ "_" ++ ts ++ "_" ++ pad5 index ++ "." ++ specExt base
  match parent base with
  | some par => if par.isEmpty then name else pathJoin par name
  | none => name

/-! ## Helper lemmas -/

/-- Decodes a list of decimal digit characters back to a number. -/
def decodeDigits (l : List Char) : Nat := l.foldl (fun a c => a * 10 + (c.toNat - 48)) 0

theorem digitCh_toNat : ∀ d, d < 10 → (digitCh d).toNat = 48 + d := by decide

theorem foldl_digit_acc (l : List Char) :
    ∀ a : Nat, l.foldl (fun a c => a * 10 + (c.toNat - 48)) a =
      a * 10 ^ l.length + decodeDigits l := by
  induction l with
  | nil => intro a; simp [decodeDigits]
  | cons c t ih =>
    intro a
    have hd : decodeDigits (c :: t) = (c.toNat - 48) * 10 ^ t.length + decodeDigits t := by
      show List.foldl _ (0 * 10 + (c.toNat - 48)) t = _
      rw [ih]
      ring
    rw [List.foldl_cons, ih, hd, List.length_cons]
    ring

theorem decode_natDigitsAux : ∀ f n, n < f → decodeDigits (natDigitsAux f n) = n := by
  intro f
  induction f with
  | zero => intro n h; omega
  | succ f ih =>
    intro n h
    by_cases h10 : n < 10
    · simp only [natDigitsAux, if_pos h10, decodeDigits, List.foldl_cons, List.foldl_nil]
      rw [digitCh_toNat n h10]
      omega
    · have hd : n / 10 < f := by omega
      simp only [natDigitsAux, if_neg h10, decodeDigits, List.foldl_append, List.foldl_cons,
        List.foldl_nil]
      have := ih (n / 10) hd
      simp only [decodeDigits] at this
      rw [this, digitCh_toNat (n % 10) (Nat.mod_lt n (by omega))]
      omega

theorem decode_replicate_zero (z : Nat) (l : List Char) :
    decodeDigits (List.replicate z '0' ++ l) = decodeDigits l := by
  induction z with
  | zero => simp
  | succ z ih => simpa [decodeDigits, List.replicate_succ] using ih

theorem decode_pad5 (n : Nat) : decodeDigits (pad5 n).data = n := by
  show decodeDigits (List.replicate (5 - (natDigits n).length) '0' ++ natDigits n) = n
  rw [decode_replicate_zero]
  exact decode_natDigitsAux (n + 1) n (Nat.lt_succ_self n)

theorem pad5_inj {m n : Nat} (h : pad5 m = pad5 n) : m = n := by
  have := congrArg (fun s => decodeDigits s.data) h
  simpa [decode_pad5] using this

theorem data_append (a b : String) : (a ++ b).data = a.data ++ b.data := by
  cases a; cases b; rfl

theorem string_ext {a b : String} (h : a.data = b.data) : a = b := by
  cases a; cases b; exact congrArg String.mk h

/-- A successful iteration of the creation loop terminates it with the file
handle, the saturated index advance, and the log line. -/
theorem createLoop_step_ok (fuel : Nat) (s : File) (w : World) (ts : String) (a : Nat)
    (file : FsFile) (w1 : World)
    (h : fsCreate s.overwrite (s.segment_path ts ((s.segment_index + a) % 2 ^ 64)) w =
      .ok (file, w1)) :
    createLoop (fuel + 1) s w ts a =
      match s.header with
      | some hd =>
        match fsWriteAll file hd w1 with
        | .error e => some (.err e, s, w1)
        | .ok w2 =>
          some (.ok file,
            { s with segment_index := usat ((s.segment_index + a) % 2 ^ 64 + 1) },
            logLine w2 (if s.segment_index == 0 && a == 0 then .info else .debug)
              ("Recording to: " ++ s.segment_path ts ((s.segment_index + a) % 2 ^ 64)))
      | none =>
        some (.ok file,
          { s with segment_index := usat ((s.segment_index + a) % 2 ^ 64 + 1) },
          logLine w1 (if s.segment_index == 0 && a == 0 then .info else .debug)
            ("Recording to: " ++ s.segment_path ts ((s.segment_index + a) % 2 ^ 64))) := by
  simp only [createLoop, h]

/-- A fatal first iteration (any error while overwriting, or an error whose
kind is not `AlreadyExists`) terminates the loop with that error and the
sink and world unchanged. -/
theorem createLoop_step_fatal (fuel : Nat) (s : File) (w : World) (ts : String) (a : Nat)
    (e : IoError)
    (h : fsCreate s.overwrite (s.segment_path ts ((s.segment_index + a) % 2 ^ 64)) w =
      .error e)
    (hf : s.overwrite = true ∨ e.kind ≠ .alreadyExists) :
    createLoop (fuel + 1) s w ts a = some (.err e, s, w) := by
  have hcond : (!s.overwrite && e.kind == ErrorKind.alreadyExists) = false := by
    rcases hf with hov | hk
    · simp [hov]
    · simp [hk]
  simp only [createLoop, h, hcond, Bool.false_eq_true, if_false]

/-- A colliding iteration (non-overwrite, `AlreadyExists`) retries with the
saturated next attempt, same timestamp, sink and world. -/
theorem createLoop_step_retry (fuel : Nat) (s : File) (w : World) (ts : String) (a : Nat)
    (e : IoError)
    (h : fsCreate s.overwrite (s.segment_path ts ((s.segment_index + a) % 2 ^ 64)) w =
      .error e)
    (hov : s.overwrite = false) (hk : e.kind = .alreadyExists) :
    createLoop (fuel + 1) s w ts a = createLoop fuel s w ts (usat (a + 1)) := by
  have h' : fsCreate false (s.segment_path ts ((s.segment_index + a) % 2 ^ 64)) w = .error e :=
    hov ▸ h
  simp only [createLoop, hov, h', hk]
  rfl

/-- Running `n` colliding iterations in a row just advances the attempt
counter by `n`, keeping timestamp, sink and world. -/
theorem createLoop_blocked : ∀ (n fuel : Nat) (s : File) (w : World) (ts : String) (a : Nat),
    s.overwrite = false →
    a + n ≤ U64MAX →
    (∀ k, k < n → ∃ e : IoError, e.kind = .alreadyExists ∧
      fsCreate s.overwrite (s.segment_path ts ((s.segment_index + (a + k)) % 2 ^ 64)) w =
        .error e) →
    createLoop (fuel + n) s w ts a = createLoop fuel s w ts (a + n) := by
  intro n
  induction n with
  | zero => intro fuel s w ts a _ _ _; rfl
  | succ n ih =>
    intro fuel s w ts a hov hle hblock
    obtain ⟨e, hk, he⟩ := hblock 0 (Nat.succ_pos n)
    have h1 : fuel + (n + 1) = (fuel + n) + 1 := by omega
    rw [h1, createLoop_step_retry (fuel + n) s w ts a e (by simpa using he) hov hk]
    have hsat : usat (a + 1) = a + 1 := by
      simp only [usat]
      omega
    rw [hsat]
    have := ih fuel s w ts (a + 1) hov (by omega) (fun k hkn => by
      have := hblock (k + 1) (by omega)
      simpa [Nat.add_assoc, Nat.add_comm 1 k] using this)
    rw [this]
    congr 1
    omega

/-- The loop reports an error only with the sink state it started from. -/
theorem createLoop_err_state : ∀ (fuel : Nat) (s : File) (w : World) (ts : String) (a : Nat)
    (e : IoError) (s' : File) (w' : World),
    createLoop fuel s w ts a = some (.err e, s', w') → s' = s := by
  intro fuel
  induction fuel with
  | zero => intro s w ts a e s' w' h; simp [createLoop] at h
  | succ fuel ih =>
    intro s w ts a e s' w' h
    simp only [createLoop] at h
    split at h
    · split at h
      · split at h
        · simp only [Option.some.injEq, Prod.mk.injEq] at h
          exact h.2.1.symm
        · simp at h
      · simp at h
    · split at h
      · exact ih s w ts _ e s' w' h
      · simp only [Option.some.injEq, Prod.mk.injEq] at h
        exact h.2.1.symm

/-- The loop never panics. -/
theorem createLoop_no_panic : ∀ (fuel : Nat) (s : File) (w : World) (ts : String) (a : Nat)
    (r : RustResult FsFile) (s' : File) (w' : World),
    createLoop fuel s w ts a = some (r, s', w') → r ≠ .panicked := by
  intro fuel
  induction fuel with
  | zero => intro s w ts a r s' w' h; simp [createLoop] at h
  | succ fuel ih =>
    intro s w ts a r s' w' h
    simp only [createLoop] at h
    split at h
    · split at h
      · split at h
        · simp only [Option.some.injEq, Prod.mk.injEq] at h
          simp [← h.1]
        · simp only [Option.some.injEq, Prod.mk.injEq] at h
          simp [← h.1]
      · simp only [Option.some.injEq, Prod.mk.injEq] at h
        simp [← h.1]
    · split at h
      · exact ih s w ts _ r s' w' h
      · simp only [Option.some.injEq, Prod.mk.injEq] at h
        simp [← h.1]

theorem lookup_setFile_self (w : World) (p : String) (d : List Nat) :
    lookupFile (setFile w p d) p = some d := by
  show ((setFileList w.files p d).find? (fun e => e.1 == p)).map (fun e => e.2) = some d
  induction w.files with
  | nil => simp [setFileList, List.find?]
  | cons q t ih =>
    by_cases hq : q.1 = p
    · simp [setFileList, hq, List.find?]
    · simp only [setFileList]
      rw [if_neg (by exact fun hc => hq (by simp [hc]))]
      simp only [List.find?]
      rw [show (q.1 == p) = false by simpa using hq]
      exact ih

theorem lookup_logLine (w : World) (lvl : LogLevel) (m p : String) :
    lookupFile (logLine w lvl m) p = lookupFile w p := rfl

/-- A segment the loop successfully creates holds exactly the stored header
(or nothing) as its contents. -/
theorem createLoop_ok_content : ∀ (fuel : Nat) (s : File) (w : World) (ts : String) (a : Nat)
    (f : FsFile) (s' : File) (w' : World),
    createLoop fuel s w ts a = some (.ok f, s', w') →
    lookupFile w' f.path = some (s.header.getD []) := by
  intro fuel
  induction fuel with
  | zero => intro s w ts a f s' w' h; simp [createLoop] at h
  | succ fuel ih =>
    intro s w ts a f s' w' h
    simp only [createLoop] at h
    cases hcreate : fsCreate s.overwrite (s.segment_path ts ((s.segment_index + a) % 2 ^ 64)) w
      with
    | error e =>
      rw [hcreate] at h
      simp only at h
      split at h
      · exact ih s w ts _ f s' w' h
      · simp at h
    | ok fw =>
      obtain ⟨file, w1⟩ := fw
      rw [hcreate] at h
      have hw1 : lookupFile w1 file.path = some [] := by
        unfold fsCreate at hcreate
        split at hcreate
        · simp at hcreate
        · split at hcreate
          · simp at hcreate
          · simp only [Except.ok.injEq, Prod.mk.injEq] at hcreate
            rw [← hcreate.2, ← hcreate.1]
            exact lookup_setFile_self w _ []
      cases hhd : s.header with
      | none =>
        rw [hhd] at h
        simp only [Option.some.injEq, Prod.mk.injEq, RustResult.ok.injEq] at h
        obtain ⟨hfe, _, hw⟩ := h
        rw [← hw, lookup_logLine, ← hfe]
        simpa using hw1
      | some hd =>
        rw [hhd] at h
        simp only at h
        cases hfw : fsWriteAll file hd w1 with
        | error e =>
          rw [hfw] at h
          simp at h
        | ok w2 =>
          rw [hfw] at h
          simp only [Option.some.injEq, Prod.mk.injEq, RustResult.ok.injEq] at h
          obtain ⟨hfe, _, hw⟩ := h
          have hl2 : lookupFile w2 file.path = some ((lookupFile w1 file.path).getD [] ++ hd) := by
            unfold fsWriteAll at hfw
            split at hfw
            · simp at hfw
            · simp only [Except.ok.injEq] at hfw
              rw [← hfw]
              exact lookup_setFile_self w1 _ _
          rw [← hw, lookup_logLine, ← hfe]
          rw [hw1] at hl2
          simpa using hl2

theorem fsCreate_ok_elim (ov : Bool) (p : String) (w : World) (f : FsFile) (w1 : World)
    (h : fsCreate ov p w = .ok (f, w1)) : f = ⟨p⟩ ∧ w1 = setFile w p [] := by
  unfold fsCreate at h
  split at h
  · simp at h
  · split at h
    · simp at h
    · simp only [Except.ok.injEq, Prod.mk.injEq] at h
      exact ⟨h.1.symm, h.2.symm⟩

theorem fsWriteAll_ok_elim (f : FsFile) (b : List Nat) (w w2 : World)
    (h : fsWriteAll f b w = .ok w2) :
    w2 = setFile w f.path ((lookupFile w f.path).getD [] ++ b) := by
  unfold fsWriteAll at h
  split at h
  · simp at h
  · simp only [Except.ok.injEq] at h
    exact h.symm

theorem logLine_log (w : World) (lvl : LogLevel) (m : String) :
    (logLine w lvl m).log = w.log ++ [(lvl, m)] := rfl

theorem setFile_log (w : World) (p : String) (d : List Nat) :
    (setFile w p d).log = w.log := rfl

/-- Lifting of `createLoop_blocked` to `create_segment_file`: when the
first `n` candidates collide, the whole call behaves as the loop restarted
at attempt `n`, with the same timestamp, sink and world. -/
theorem create_blocked (s : File) (w : World) (ts : String) (n : Nat)
    (hov : s.overwrite = false) (hn : n ≤ U64MAX)
    (hblock : ∀ k, k < n → ∃ e : IoError, e.kind = .alreadyExists ∧
      fsCreate s.overwrite (s.segment_path ts ((s.segment_index + k) % 2 ^ 64)) w = .error e) :
    s.create_segment_file w ts = createLoop (2 ^ 64 - n) s w ts n := by
  show createLoop (2 ^ 64) s w ts 0 = _
  have hU : U64MAX = 18446744073709551615 := by norm_num [U64MAX]
  have h2 : (2 : Nat) ^ 64 = 18446744073709551616 := by norm_num
  have h64 : (2 : Nat) ^ 64 = (2 ^ 64 - n) + n := by omega
  nth_rewrite 1 [h64]
  rw [createLoop_blocked n (2 ^ 64 - n) s w ts 0 hov (by omega)
    (fun k hk => by simpa using hblock k hk)]
  simp only [Nat.zero_add]

theorem ensure_no_panic (s : File) (w : World) (ts : String) (r : RustResult Unit) (s' : File)
    (w' : World) (h : s.ensure_file w ts = some (r, s', w')) : r ≠ .panicked := by
  unfold File.ensure_file at h
  split at h
  · simp only [Option.some.injEq, Prod.mk.injEq] at h
    simp [← h.1]
  · cases hcr : s.create_segment_file w ts with
    | none => rw [hcr] at h; simp at h
    | some res =>
      obtain ⟨rc, sc, wc⟩ := res
      rw [hcr] at h
      cases rc with
      | ok f =>
        simp only [Option.some.injEq, Prod.mk.injEq] at h
        simp [← h.1]
      | err e =>
        simp only [Option.some.injEq, Prod.mk.injEq] at h
        simp [← h.1]
      | panicked => exact absurd rfl (createLoop_no_panic _ s w ts 0 _ sc wc hcr)

/-! ## Concrete fixtures for counterexamples and witnesses -/

/-- A world with no files, no injected OS failures and an empty log. -/
def baseWorld : World :=
  { files := [], createFail := fun _ => none, writeFail := fun _ => none, log := [] }

/-- A fresh non-overwriting sink for base path `x` and channel `c`. -/
def freshSink : File :=
  { base_path := "x", channel := "c", overwrite := false, header := none, current := none,
    segment_index := 0 }

/-- The same sink with an open handle on file `p`. -/
def openSink : File := { freshSink with current := some ⟨"p"⟩, segment_index := 5 }

/-! ## Claim C1 -/

/-- Claim C1: for every sink state — `current` `Some` or `None` — `flush`
returns `Ok`, leaves the world untouched and sets `current` to `None` on
every exit path.  The std `io::Write::flush` of an `fs::File` is
unconditionally `Ok(())`, so the `?` at file.rs line 51 never returns
early, `self.current = None` always runs and the handle is always
released: the next `write_all` opens a new segment regardless. -/
theorem C1_flush_release :
    ∀ (s : File) (w : World), s.flush w = (.ok (), { s with current := none }, w) := by
  intro s w
  unfold File.flush
  cases s.current with
  | none => rfl
  | some f => rfl

/-! ## Claim C6 -/

/-- Claim C6: `flush` with nothing open returns `Ok` and performs no
filesystem action (sink and world unchanged); after any `flush` call
`current` is `None` and the result is `Ok` (an `fs::File`'s OS flush
cannot fail), `ensure_file` opens a file exactly when `current` is
`None`, and a `write_all` issued with `current = None` creates a new
segment — so the next `write_all` after any `flush` always opens a new
segment. -/
theorem C6_flush_rotation :
    (∀ (s : File) (w : World), s.current = none → s.flush w = (.ok (), s, w))
    ∧ (∀ (s : File) (w : World),
      ((s.flush w).2.1).current = none ∧ (s.flush w).1 = .ok ())
    ∧ (∀ (s : File) (w : World) (ts : String) (f : FsFile), s.current = some f →
      s.ensure_file w ts = some (.ok (), s, w))
    ∧ (∀ (s : File) (w : World) (ts : String) (b : List Nat) (f : FsFile) (s' : File)
        (w' w2 : World), s.current = none →
      s.create_segment_file w ts = some (.ok f, s', w') →
      fsWriteAll f b w' = .ok w2 →
      s.write_all w ts b = some (.ok (), { s' with current := some f }, w2)) := by
  refine ⟨?_, ?_, ?_, ?_⟩
  · intro s w hc
    obtain ⟨bp, ch, ov, hd, cur, si⟩ := s
    cases hc
    rfl
  · intro s w
    unfold File.flush
    cases s.current with
    | none => exact ⟨rfl, rfl⟩
    | some f => exact ⟨rfl, rfl⟩
  · intro s w ts f hc
    simp [File.ensure_file, hc]
  · intro s w ts b f s' w' w2 hc hcr hw
    simp [File.write_all, File.ensure_file, hc, hcr, hw]

/-- Claim C6 witness: the theorem applied at concrete inputs — a no-op
flush on a closed sink, an `ensure_file` no-op on an open sink, and a
`write_all` on a closed sink creating a fresh segment. -/
theorem C6_flush_rotation_witness :
    freshSink.flush baseWorld = (.ok (), freshSink, baseWorld) ∧
    openSink.ensure_file baseWorld "0" = some (.ok (), openSink, baseWorld) ∧
    freshSink.write_all baseWorld "0" [7] =
      some (.ok (),
        { ({ freshSink with segment_index := 1 }) with current := some ⟨"x_c_0_00000.ts"⟩ },
        setFile
          { baseWorld with files := [("x_c_0_00000.ts", [])],
                           log := [(.info, "Recording to: x_c_0_00000.ts")] }
          "x_c_0_00000.ts" [7]) :=
  ⟨C6_flush_rotation.1 freshSink baseWorld rfl,
   C6_flush_rotation.2.2.1 openSink baseWorld "0" ⟨"p"⟩ rfl,
   C6_flush_rotation.2.2.2 freshSink baseWorld "0" [7] ⟨"x_c_0_00000.ts"⟩
     { freshSink with segment_index := 1 }
     { baseWorld with files := [("x_c_0_00000.ts", [])],
                      log := [(.info, "Recording to: x_c_0_00000.ts")] }
     (setFile
       { baseWorld with files := [("x_c_0_00000.ts", [])],
                        log := [(.info, "Recording to: x_c_0_00000.ts")] }
       "x_c_0_00000.ts" [7])
     rfl rfl rfl⟩

/-! ## Claim C7 -/

/-- Claim C7: constructing with no configured path yields the disabled
sink and an untouched world (no file, no log line); with a path the
configuration is stored verbatim with no open handle and index 0, exactly
one info line naming the path template is logged, and logging touches no
files, so no file exists until the first `write_all`. -/
theorem C7_construction :
    (∀ (ov : Bool) (ch : String) (w : World), File.new ⟨none, ov⟩ ch w = (none, w))
    ∧ (∀ (p : String) (ov : Bool) (ch : String) (w : World),
      File.new ⟨some p, ov⟩ ch w =
        (some ⟨p, ch, ov, none, none, 0⟩, logLine w .info ("Recording segments to: " ++ p)))
    ∧ (∀ (w : World) (lvl : LogLevel) (m : String), (logLine w lvl m).files = w.files) :=
  ⟨fun _ _ _ => rfl, fun _ _ _ _ => rfl, fun _ _ _ => rfl⟩

/-! ## Claim C9 -/

/-- Claim C9: the unbuffered partial-write primitive `write` is a
guaranteed panic (`unreachable!`) for every sink state and input buffer:
it never returns a byte count and never returns an error. -/
theorem C9_write_contract :
    ∀ (s : File) (buf : List Nat),
      s.write buf = .panicked ∧ (∀ v, s.write buf ≠ .ok v) ∧ ∀ e, s.write buf ≠ .err e := by
  intro s buf
  refine ⟨rfl, ?_, ?_⟩
  · intro v h
    exact absurd h (by simp [File.write])
  · intro e h
    exact absurd h (by simp [File.write])

/-! ## Claim C10 -/

/-- Claim C10: if `ensure_file` returns `Ok` then `current` is `Some`;
when it returns an error the sink is unchanged — `current` is still
`None` (an error can only come from the creation branch) and
`segment_index` kept — and consequently the `expect` in `write_all`
(modelled as the `panicked` outcome) can never fire. -/
theorem C10_ensure_file_post :
    (∀ (s : File) (w : World) (ts : String) (s' : File) (w' : World),
      s.ensure_file w ts = some (.ok (), s', w') → s'.current.isSome)
    ∧ (∀ (s : File) (w : World) (ts : String) (e : IoError) (s' : File) (w' : World),
      s.ensure_file w ts = some (.err e, s', w') → s' = s ∧ s.current = none)
    ∧ (∀ (s : File) (w : World) (ts : String) (b : List Nat)
        (r : RustResult Unit × File × World),
      s.write_all w ts b = some r → r.1 ≠ .panicked) := by
  have hok : ∀ (s : File) (w : World) (ts : String) (s' : File) (w' : World),
      s.ensure_file w ts = some (.ok (), s', w') → s'.current.isSome := by
    intro s w ts s' w' h
    unfold File.ensure_file at h
    cases hc : s.current with
    | some f =>
      rw [hc] at h
      simp only [Option.some.injEq, Prod.mk.injEq] at h
      rw [← h.2.1, hc]
      rfl
    | none =>
      rw [hc] at h
      cases hcr : s.create_segment_file w ts with
      | none => rw [hcr] at h; simp at h
      | some res =>
        obtain ⟨rc, sc, wc⟩ := res
        rw [hcr] at h
        cases rc with
        | ok f =>
          simp only [Option.some.injEq, Prod.mk.injEq] at h
          rw [← h.2.1]
          rfl
        | err e => simp at h
        | panicked => simp at h
  refine ⟨hok, ?_, ?_⟩
  · intro s w ts e s' w' h
    unfold File.ensure_file at h
    cases hc : s.current with
    | some f => rw [hc] at h; simp at h
    | none =>
      rw [hc] at h
      refine ⟨?_, rfl⟩
      cases hcr : s.create_segment_file w ts with
      | none => rw [hcr] at h; simp at h
      | some res =>
        obtain ⟨rc, sc, wc⟩ := res
        rw [hcr] at h
        cases rc with
        | ok f => simp at h
        | err e' =>
          simp only [Option.some.injEq, Prod.mk.injEq, RustResult.err.injEq] at h
          rw [← h.2.1]
          exact createLoop_err_state _ s w ts 0 e' sc wc hcr
        | panicked => simp at h
  · intro s w ts b r h
    unfold File.write_all at h
    cases he : s.ensure_file w ts with
    | none => rw [he] at h; simp at h
    | some res =>
      obtain ⟨re, se, we⟩ := res
      rw [he] at h
      cases re with
      | ok u =>
        cases u
        simp only at h
        cases hc : se.current with
        | none =>
          exact absurd (hok s w ts se we he) (by simp [hc])
        | some f =>
          rw [hc] at h
          simp only at h
          cases hw : fsWriteAll f b we with
          | error e =>
            rw [hw] at h
            simp only [Option.some.injEq] at h
            simp [← h]
          | ok w2 =>
            rw [hw] at h
            simp only [Option.some.injEq] at h
            simp [← h]
      | err e =>
        simp only [Option.some.injEq] at h
        simp [← h]
      | panicked => exact absurd rfl (ensure_no_panic s w ts _ se we he)

/-- A world whose every create fails with `PermissionDenied`. -/
def denyWorld : World := { baseWorld with createFail := fun _ => some .permissionDenied }

/-- Claim C10 witness: the theorem applied at concrete inputs. -/
theorem C10_ensure_file_post_witness :
    (({ freshSink with
         segment_index := 1
         current := some ⟨"x_c_0_00000.ts"⟩ } : File).current.isSome = true)
    ∧ (freshSink = freshSink ∧ freshSink.current = none)
    ∧ (RustResult.ok () ≠ RustResult.panicked) :=
  ⟨C10_ensure_file_post.1 freshSink baseWorld "0"
      { freshSink with segment_index := 1, current := some ⟨"x_c_0_00000.ts"⟩ }
      { baseWorld with files := [("x_c_0_00000.ts", [])],
                       log := [(.info, "Recording to: x_c_0_00000.ts")] } rfl,
   C10_ensure_file_post.2.1 freshSink denyWorld "0" ⟨.permissionDenied⟩ freshSink denyWorld rfl,
   C10_ensure_file_post.2.2 freshSink baseWorld "0" [7]
     (.ok (),
       { freshSink with segment_index := 1, current := some ⟨"x_c_0_00000.ts"⟩ },
       setFile
         { baseWorld with files := [("x_c_0_00000.ts", [])],
                          log := [(.info, "Recording to: x_c_0_00000.ts")] }
         "x_c_0_00000.ts" [7]) rfl⟩

/-! ## Claim C3 -/

/-- A world holding the index-0 candidate for `freshSink` at timestamp 0. -/
def collideWorld : World := { baseWorld with files := [("x_c_0_00000.ts", [])] }

/-- A world whose every create fails with `NotFound`. -/
def notFoundWorld : World := { baseWorld with createFail := fun _ => some .notFound }

/-- Claim C3: during segment creation the only retried situation is a
non-overwrite create failure of kind `AlreadyExists`.  With overwrite on,
any first-candidate error propagates unchanged and aborts creation with
the sink and world untouched; with overwrite off, a first-candidate error
of any other kind does the same; and when the first `n` candidates fail
with `AlreadyExists`, the call equals the loop resumed at attempt `n` —
same timestamp (never re-sampled), candidate index `segment_index + n`. -/
theorem C3_retry_semantics :
    (∀ (s : File) (w : World) (ts : String) (e : IoError), s.overwrite = true →
      fsCreate s.overwrite (s.segment_path ts (s.segment_index % 2 ^ 64)) w = .error e →
      s.create_segment_file w ts = some (.err e, s, w))
    ∧ (∀ (s : File) (w : World) (ts : String) (e : IoError), s.overwrite = false →
      e.kind ≠ .alreadyExists →
      fsCreate s.overwrite (s.segment_path ts (s.segment_index % 2 ^ 64)) w = .error e →
      s.create_segment_file w ts = some (.err e, s, w))
    ∧ (∀ (s : File) (w : World) (ts : String) (n : Nat), s.overwrite = false → n ≤ U64MAX →
      (∀ k, k < n → ∃ e : IoError, e.kind = .alreadyExists ∧
        fsCreate s.overwrite (s.segment_path ts ((s.segment_index + k) % 2 ^ 64)) w =
          .error e) →
      s.create_segment_file w ts = createLoop (2 ^ 64 - n) s w ts n) := by
  refine ⟨?_, ?_, ?_⟩
  · intro s w ts e hov h
    show createLoop (2 ^ 64) s w ts 0 = _
    have h' : fsCreate s.overwrite (s.segment_path ts ((s.segment_index + 0) % 2 ^ 64)) w =
        .error e := by simpa using h
    have h64 : (2 : Nat) ^ 64 = (2 ^ 64 - 1) + 1 := by norm_num
    rw [h64]
    exact createLoop_step_fatal _ s w ts 0 e h' (Or.inl hov)
  · intro s w ts e _ hk h
    show createLoop (2 ^ 64) s w ts 0 = _
    have h' : fsCreate s.overwrite (s.segment_path ts ((s.segment_index + 0) % 2 ^ 64)) w =
        .error e := by simpa using h
    have h64 : (2 : Nat) ^ 64 = (2 ^ 64 - 1) + 1 := by norm_num
    rw [h64]
    exact createLoop_step_fatal _ s w ts 0 e h' (Or.inr hk)
  · intro s w ts n hov hn hblock
    exact create_blocked s w ts n hov hn hblock

/-- Claim C3 witness: the three conjuncts applied at concrete inputs — an
overwriting sink hitting `PermissionDenied`, a non-overwriting sink
hitting `NotFound`, and a non-overwriting sink whose index-0 candidate
already exists and is retried at index 1 with the same timestamp. -/
theorem C3_retry_semantics_witness :
    ({ freshSink with overwrite := true } : File).create_segment_file denyWorld "0" =
      some (.err ⟨.permissionDenied⟩, { freshSink with overwrite := true }, denyWorld)
    ∧ freshSink.create_segment_file notFoundWorld "0" =
      some (.err ⟨.notFound⟩, freshSink, notFoundWorld)
    ∧ freshSink.create_segment_file collideWorld "0" =
      createLoop (2 ^ 64 - 1) freshSink collideWorld "0" 1 :=
  ⟨C3_retry_semantics.1 { freshSink with overwrite := true } denyWorld "0"
      ⟨.permissionDenied⟩ rfl rfl,
   C3_retry_semantics.2.1 freshSink notFoundWorld "0" ⟨.notFound⟩ rfl (by decide) rfl,
   C3_retry_semantics.2.2 freshSink collideWorld "0" 1 rfl (by norm_num [U64MAX])
     (fun k hk => by
       interval_cases k
       exact ⟨⟨.alreadyExists⟩, rfl, rfl⟩)⟩

/-! ## Claim C4 -/

/-- Claim C4: on a fresh sink whose header was set to `H`, a successful
`write_all D` leaves an open segment whose contents are exactly `H ++ D`;
`set_header` only replaces the stored header field (last call wins) and
touches no file, so it cannot modify a segment already written; and every
successfully created segment starts with exactly the header stored at
creation time. -/
theorem C4_header_prefix :
    (∀ (bp ch : String) (ov : Bool) (w : World) (H D : List Nat) (ts : String)
        (s1 : File) (w1 : World),
      File.write_all ⟨bp, ch, ov, some H, none, 0⟩ w ts D = some (.ok (), s1, w1) →
      s1.current.isSome ∧ ∀ f, s1.current = some f → lookupFile w1 f.path = some (H ++ D))
    ∧ (∀ (s : File) (h : List Nat), s.set_header h = (.ok (), { s with header := some h }))
    ∧ (∀ (s : File) (w : World) (ts : String) (f : FsFile) (s' : File) (w' : World),
      s.create_segment_file w ts = some (.ok f, s', w') →
      lookupFile w' f.path = some (s.header.getD [])) := by
  refine ⟨?_, fun _ _ => rfl, ?_⟩
  · intro bp ch ov w H D ts s1 w1 h
    unfold File.write_all at h
    cases he : File.ensure_file ⟨bp, ch, ov, some H, none, 0⟩ w ts with
    | none => rw [he] at h; simp at h
    | some res =>
      obtain ⟨re, se, we⟩ := res
      rw [he] at h
      cases re with
      | err e => simp at h
      | panicked => simp at h
      | ok u =>
        cases u
        simp only at h
        unfold File.ensure_file at he
        simp only at he
        cases hcr : File.create_segment_file ⟨bp, ch, ov, some H, none, 0⟩ w ts with
        | none => rw [hcr] at he; simp at he
        | some resc =>
          obtain ⟨rc, sc, wc⟩ := resc
          rw [hcr] at he
          cases rc with
          | err e => simp at he
          | panicked => simp at he
          | ok f =>
            simp only [Option.some.injEq, Prod.mk.injEq] at he
            obtain ⟨_, hse, hwe⟩ := he
            rw [← hse] at h
            simp only at h
            cases hfw : fsWriteAll f D we with
            | error e => rw [hfw] at h; simp at h
            | ok w2 =>
              rw [hfw] at h
              simp only [Option.some.injEq, Prod.mk.injEq] at h
              obtain ⟨_, hs1, hw1⟩ := h
              have hcontent : lookupFile wc f.path = some H := by
                have hcr' : createLoop (2 ^ 64) ⟨bp, ch, ov, some H, none, 0⟩ w ts 0 =
                    some (.ok f, sc, wc) := hcr
                simpa using createLoop_ok_content (2 ^ 64) ⟨bp, ch, ov, some H, none, 0⟩
                  w ts 0 f sc wc hcr'
              rw [← hwe] at hfw
              have hw2 := fsWriteAll_ok_elim f D wc w2 hfw
              rw [hcontent] at hw2
              constructor
              · rw [← hs1]
                rfl
              · intro f' hf'
                rw [← hs1] at hf'
                simp only [Option.some.injEq] at hf'
                rw [← hw1, ← hf', hw2]
                simpa using lookup_setFile_self wc f.path ([] ++ (H ++ D))
  · intro s w ts f s' w' h
    exact createLoop_ok_content _ s w ts 0 f s' w' h

/-- The sink of the spec's end-to-end scenario after `set_header [1]`. -/
def c4Sink : File := ⟨"out/record.ts", "ch1", false, some [1], none, 0⟩

/-- The expected sink state after the first `write_all` of that scenario. -/
def c4Sink1 : File :=
  { c4Sink with segment_index := 1, current := some ⟨"out/record_ch1_T_00000.ts"⟩ }

/-- The expected world after the first `write_all` of that scenario. -/
def c4World1 : World :=
  { baseWorld with files := [("out/record_ch1_T_00000.ts", [1, 2, 3])],
                   log := [(.info, "Recording to: out/record_ch1_T_00000.ts")] }

/-- Claim C4 witness: the theorem applied to the spec's end-to-end
scenario — header `[1]`, data `[2, 3]`, base path `out/record.ts`. -/
theorem C4_header_prefix_witness :
    c4Sink1.current.isSome = true ∧
    lookupFile c4World1 "out/record_ch1_T_00000.ts" = some ([1] ++ [2, 3]) := by
  have hx := C4_header_prefix.1 "out/record.ts" "ch1" false baseWorld [1] [2, 3] "T"
    c4Sink1 c4World1 rfl
  exact ⟨hx.1, hx.2 ⟨"out/record_ch1_T_00000.ts"⟩ rfl⟩

/-! ## Claim C8 -/

/-- Claim C8 (counterexample): on a completely fresh sink
(`segment_index = 0`, nothing ever created) whose first candidate name is
taken, the very first segment ever created is logged at debug level, not
info — the code requires `attempt == 0` in addition to
`segment_index == 0`, so a first segment that needed a collision retry is
not logged at info level. -/
theorem C8_cex_first_segment_logged_debug :
    freshSink.create_segment_file collideWorld "0" =
      some (.ok ⟨"x_c_0_00001.ts"⟩, { freshSink with segment_index := 2 },
        { collideWorld with files := [("x_c_0_00000.ts", []), ("x_c_0_00001.ts", [])],
                            log := [(.debug, "Recording to: x_c_0_00001.ts")] }) := rfl

/-- A successful terminal iteration of the resumed loop: the created
handle, the saturated index store and the logged line, for either
overwrite mode. -/
theorem createLoop_tail_ok (s : File) (w : World) (ts : String) (n : Nat) (f : FsFile)
    (w1 : World) (f' : FsFile) (s' : File) (w' : World)
    (hn : n ≤ U64MAX)
    (hok : fsCreate s.overwrite (s.segment_path ts ((s.segment_index + n) % 2 ^ 64)) w =
      .ok (f, w1))
    (htail : createLoop (2 ^ 64 - n) s w ts n = some (.ok f', s', w')) :
    f' = f ∧
    s' = { s with segment_index := usat ((s.segment_index + n) % 2 ^ 64 + 1) } ∧
    w'.log = w.log ++
      [((if s.segment_index == 0 && n == 0 then LogLevel.info else LogLevel.debug),
        "Recording to: " ++ s.segment_path ts ((s.segment_index + n) % 2 ^ 64))] := by
  have hU : U64MAX = 18446744073709551615 := by norm_num [U64MAX]
  have h2 : (2 : Nat) ^ 64 = 18446744073709551616 := by norm_num
  have hfu : 2 ^ 64 - n = (2 ^ 64 - n - 1) + 1 := by omega
  rw [hfu, createLoop_step_ok _ s w ts n f w1 hok] at htail
  have hw1log : w1.log = w.log := by
    rw [(fsCreate_ok_elim s.overwrite _ w f w1 hok).2]
    rfl
  cases hhd : s.header with
  | none =>
    rw [hhd] at htail
    simp only [Option.some.injEq, Prod.mk.injEq, RustResult.ok.injEq] at htail
    obtain ⟨hfe, hse, hw⟩ := htail
    refine ⟨hfe.symm, hse.symm, ?_⟩
    rw [← hw, logLine_log, hw1log]
  | some hd =>
    rw [hhd] at htail
    simp only at htail
    cases hfw : fsWriteAll f hd w1 with
    | error e => rw [hfw] at htail; simp at htail
    | ok w2 =>
      rw [hfw] at htail
      simp only [Option.some.injEq, Prod.mk.injEq, RustResult.ok.injEq] at htail
      obtain ⟨hfe, hse, hw⟩ := htail
      have hw2log : w2.log = w.log := by
        rw [fsWriteAll_ok_elim f hd w1 w2 hfw, setFile_log, hw1log]
      refine ⟨hfe.symm, hse.symm, ?_⟩
      rw [← hw, logLine_log, hw2log]

/-- A successful creation call equals the loop resumed at attempt `n`
when the first `n` candidates collided; with overwrite on there are no
retries, so only `n = 0` occurs and no mode hypothesis is needed there. -/
theorem create_tail (s : File) (w : World) (ts : String) (n : Nat) (f' : FsFile) (s' : File)
    (w' : World) (hmode : s.overwrite = false ∨ n = 0) (hn : n ≤ U64MAX)
    (hblock : ∀ k, k < n → ∃ e : IoError, e.kind = .alreadyExists ∧
      fsCreate s.overwrite (s.segment_path ts ((s.segment_index + k) % 2 ^ 64)) w = .error e)
    (hcr : s.create_segment_file w ts = some (.ok f', s', w')) :
    createLoop (2 ^ 64 - n) s w ts n = some (.ok f', s', w') := by
  rcases hmode with hov | hn0
  · rw [← create_blocked s w ts n hov hn hblock]
    exact hcr
  · subst hn0
    exact hcr

/-- Claim C8 (amended): a successful segment creation that succeeded at
attempt `n` — in either overwrite mode; with overwrite on, `n` is always
0 — logs its concrete path at info level if and only if this is the very
first segment of the sink (`segment_index = 0`) AND it was created
without any collision retry (`n = 0`); otherwise — including a first
segment that needed retries — it logs at debug level. -/
theorem C8_log_levels :
    ∀ (s : File) (w : World) (ts : String) (n : Nat) (f : FsFile) (w1 : World) (f' : FsFile)
      (s' : File) (w' : World),
    s.overwrite = false ∨ n = 0 →
    n ≤ U64MAX →
    (∀ k, k < n → ∃ e : IoError, e.kind = .alreadyExists ∧
      fsCreate s.overwrite (s.segment_path ts ((s.segment_index + k) % 2 ^ 64)) w = .error e) →
    fsCreate s.overwrite (s.segment_path ts ((s.segment_index + n) % 2 ^ 64)) w = .ok (f, w1) →
    s.create_segment_file w ts = some (.ok f', s', w') →
    w'.log = w.log ++
      [((if s.segment_index == 0 && n == 0 then LogLevel.info else LogLevel.debug),
        "Recording to: " ++ s.segment_path ts ((s.segment_index + n) % 2 ^ 64))] := by
  intro s w ts n f w1 f' s' w' hmode hn hblock hok hcr
  exact (createLoop_tail_ok s w ts n f w1 f' s' w' hn hok
    (create_tail s w ts n f' s' w' hmode hn hblock hcr)).2.2

/-- Claim C8 witness: the amended theorem applied to a fresh
non-overwriting sink whose first segment needed one collision retry (the
log line is at debug), and to a fresh overwriting sink creating its first
segment on the first try (the log line is at info). -/
theorem C8_log_levels_witness :
    (({ collideWorld with files := [("x_c_0_00000.ts", []), ("x_c_0_00001.ts", [])],
                          log := [(.debug, "Recording to: x_c_0_00001.ts")] } : World).log =
      collideWorld.log ++ [(.debug, "Recording to: x_c_0_00001.ts")])
    ∧ (({ baseWorld with files := [("x_c_0_00000.ts", [])],
                         log := [(.info, "Recording to: x_c_0_00000.ts")] } : World).log =
      baseWorld.log ++ [(.info, "Recording to: x_c_0_00000.ts")]) := by
  constructor
  · exact C8_log_levels freshSink collideWorld "0" 1 ⟨"x_c_0_00001.ts"⟩
      (setFile collideWorld "x_c_0_00001.ts" []) ⟨"x_c_0_00001.ts"⟩
      { freshSink with segment_index := 2 }
      { collideWorld with files := [("x_c_0_00000.ts", []), ("x_c_0_00001.ts", [])],
                          log := [(.debug, "Recording to: x_c_0_00001.ts")] }
      (Or.inl rfl) (by norm_num [U64MAX])
      (fun k hk => by
        interval_cases k
        exact ⟨⟨.alreadyExists⟩, rfl, rfl⟩)
      rfl rfl
  · exact C8_log_levels { freshSink with overwrite := true } baseWorld "0" 0
      ⟨"x_c_0_00000.ts"⟩ (setFile baseWorld "x_c_0_00000.ts" []) ⟨"x_c_0_00000.ts"⟩
      { freshSink with overwrite := true, segment_index := 1 }
      { baseWorld with files := [("x_c_0_00000.ts", [])],
                       log := [(.info, "Recording to: x_c_0_00000.ts")] }
      (Or.inr rfl) (by norm_num [U64MAX])
      (fun k hk => absurd hk (by omega))
      rfl rfl

/-! ## Claim C2 -/

theorem stem_eq (p : String) : (split_stem_ext p).1 = specStem p := by
  show (((fileStem p).orElse (fun _ => fileName p)).filter (fun s => !s.isEmpty)).getD
    "recording" = _
  unfold specStem
  cases hf : fileName p with
  | none => simp [fileStem, hf, Option.orElse, Option.filter]
  | some nm =>
    simp only [fileStem, hf]
    cases he : (⟨stemOfName nm.data⟩ : String).isEmpty <;>
      simp [Option.orElse, Option.filter, he]

theorem ext_eq (p : String) : (split_stem_ext p).2 = specExt p := by
  show ((extension p).filter (fun e => !e.isEmpty)).getD "ts" = _
  unfold specExt
  cases hx : extension p with
  | none => simp [Option.filter]
  | some e =>
    cases he : e.isEmpty <;> simp [Option.filter, he]

/-- Claim C2: for every base path, channel, timestamp and index, the
derived segment path is the deterministic string
stem `_` channel `_` timestamp `_` index (zero-padded to 5) `.` ext, with
stem the base path's filename without its final extension (default
"recording" when absent or empty), ext the base path's final extension
(default "ts" when absent or empty), placed in the base path's parent
directory when non-empty and bare (current working directory) otherwise. -/
theorem C2_segment_path_spec :
    ∀ (s : File) (ts : String) (idx : Nat),
      s.segment_path ts idx = specSegmentPath s.base_path s.channel ts idx := by
  intro s ts idx
  cases hp : parent s.base_path with
  | none => simp [File.segment_path, specSegmentPath, hp, Option.filter, stem_eq, ext_eq]
  | some par =>
    cases hpe : par.isEmpty <;>
      simp [File.segment_path, specSegmentPath, hp, hpe, Option.filter, stem_eq, ext_eq]

/-! ## Claim C5

The candidate index at file.rs line 99 is the plain (wrapping) `u64` sum
`segment_index + attempt`; only the store at line 120 saturates.  A
creation call that collides `2 ^ 64 - 1` times therefore drives
`segment_index` to `u64::MAX`, and one further collision wraps the next
candidate index to 0 — after which a success stores index 1, a decrease. -/

/-- The call-1 success path: base `x`, channel `c`, timestamp 0, index
`u64::MAX`. -/
def c5Path1 : String := "x_c_0_" ++ pad5 U64MAX ++ ".ts"

/-- The call-2 success path: timestamp 1, index 0 (after the wrap). -/
def c5Path2 : String := "x_c_1_00000.ts"

/-- A world where creating any path other than the two targets fails with
`AlreadyExists` (the OS reporting a colliding name). -/
def c5World : World :=
  { baseWorld with
    createFail := fun p =>
      if p = c5Path1 then none else if p = c5Path2 then none else some .alreadyExists }

theorem c5_seg_path1 (k : Nat) : freshSink.segment_path "0" k =
    "x" ++ "_" ++ "c" ++ "_" ++ "0" ++ "_" ++ pad5 k ++ "." ++ "ts" := rfl

theorem c5_seg_path1_data (k : Nat) : (freshSink.segment_path "0" k).data =
    'x' :: '_' :: 'c' :: '_' :: '0' :: '_' :: ((pad5 k).data ++ ['.', 't', 's']) := by
  rw [c5_seg_path1]
  simp [data_append, show "x".data = ['x'] from rfl, show "_".data = ['_'] from rfl,
    show "c".data = ['c'] from rfl, show "0".data = ['0'] from rfl,
    show ".".data = ['.'] from rfl, show "ts".data = ['t', 's'] from rfl]

theorem c5Path1_data : c5Path1.data =
    'x' :: '_' :: 'c' :: '_' :: '0' :: '_' :: ((pad5 U64MAX).data ++ ['.', 't', 's']) := by
  show ("x_c_0_" ++ pad5 U64MAX ++ ".ts").data = _
  simp [data_append, show "x_c_0_".data = ['x', '_', 'c', '_', '0', '_'] from rfl,
    show ".ts".data = ['.', 't', 's'] from rfl]

theorem c5_blocked1 : ∀ k, k < U64MAX → ∃ e : IoError, e.kind = .alreadyExists ∧
    fsCreate freshSink.overwrite
      (freshSink.segment_path "0" ((freshSink.segment_index + k) % 2 ^ 64)) c5World =
      .error e := by
  intro k hk
  have hU : U64MAX = 18446744073709551615 := by norm_num [U64MAX]
  have h2 : (2 : Nat) ^ 64 = 18446744073709551616 := by norm_num
  have hmod : (freshSink.segment_index + k) % 2 ^ 64 = k := by
    show (0 + k) % 2 ^ 64 = k
    omega
  rw [hmod]
  refine ⟨⟨.alreadyExists⟩, rfl, ?_⟩
  have hne1 : freshSink.segment_path "0" k ≠ c5Path1 := by
    intro hcontra
    have hdata := congrArg String.data hcontra
    rw [c5_seg_path1_data, c5Path1_data] at hdata
    simp only [List.cons.injEq, true_and] at hdata
    have hpk : pad5 k = pad5 U64MAX := string_ext (List.append_cancel_right hdata)
    exact absurd (pad5_inj hpk) (by omega)
  have hne2 : freshSink.segment_path "0" k ≠ c5Path2 := by
    intro hcontra
    have hdata := congrArg String.data hcontra
    rw [c5_seg_path1_data] at hdata
    rw [show c5Path2.data = ['x', '_', 'c', '_', '1', '_', '0', '0', '0', '0', '0', '.', 't', 's']
      from rfl] at hdata
    simp only [List.cons.injEq] at hdata
    exact absurd hdata.2.2.2.2.1 (by decide)
  have hcf : c5World.createFail (freshSink.segment_path "0" k) = some .alreadyExists := by
    show (if freshSink.segment_path "0" k = c5Path1 then none
      else if freshSink.segment_path "0" k = c5Path2 then none
      else some ErrorKind.alreadyExists) = _
    rw [if_neg hne1, if_neg hne2]
  show fsCreate false (freshSink.segment_path "0" k) c5World = .error ⟨.alreadyExists⟩
  unfold fsCreate
  rw [hcf]

/-- Expected sink after call 1: `segment_index` saturated at `u64::MAX`. -/
def c5Sink1 : File := { freshSink with segment_index := U64MAX, current := some ⟨c5Path1⟩ }

/-- Expected world after call 1. -/
def c5World1 : World :=
  { c5World with files := [(c5Path1, [])], log := [(.debug, "Recording to: " ++ c5Path1)] }

theorem c5_create1 : freshSink.create_segment_file c5World "0" =
    some (.ok ⟨c5Path1⟩, { freshSink with segment_index := U64MAX },
      logLine (setFile c5World c5Path1 []) .debug ("Recording to: " ++ c5Path1)) := by
  rw [create_blocked freshSink c5World "0" U64MAX rfl (le_refl _) c5_blocked1]
  rw [show (2 : Nat) ^ 64 - U64MAX = 0 + 1 from by norm_num [U64MAX]]
  rw [createLoop_step_ok 0 freshSink c5World "0" U64MAX ⟨c5Path1⟩ (setFile c5World c5Path1 [])
    rfl]
  rfl

theorem write_all_create_ok (s : File) (w : World) (ts : String) (b : List Nat) (f : FsFile)
    (s' : File) (w' w2 : World) (hc : s.current = none)
    (hcr : s.create_segment_file w ts = some (.ok f, s', w'))
    (hw : fsWriteAll f b w' = .ok w2) :
    s.write_all w ts b = some (.ok (), { s' with current := some f }, w2) := by
  simp [File.write_all, File.ensure_file, hc, hcr, hw]

/-- Expected sink after the failed-index-wrap second call. -/
def c5Sink2 : File := { freshSink with segment_index := 1, current := some ⟨c5Path2⟩ }

/-- Expected world after call 2. -/
def c5World2 : World :=
  { c5World with files := [(c5Path1, []), (c5Path2, [])],
                 log := [(.debug, "Recording to: " ++ c5Path1),
                         (.debug, "Recording to: " ++ c5Path2)] }

/-- Claim C5 (counterexample): starting from construction, a `write_all`
whose creation collides on every candidate except index `u64::MAX`
saturates `segment_index` at `u64::MAX`; after a flush, the next
`write_all` (new timestamp) collides once, the plain `u64` add
`segment_index + attempt` (file.rs line 99) wraps the candidate index to
0, creation succeeds there and stores index 1: `segment_index` decreases
from `u64::MAX` to 1 across operations of one sink instance. -/
theorem C5_cex_segment_index_decreases :
    (File.new ⟨some "x", false⟩ "c" c5World).1 = some freshSink
    ∧ freshSink.write_all c5World "0" [] = some (.ok (), c5Sink1, c5World1)
    ∧ c5Sink1.flush c5World1 = (.ok (), { c5Sink1 with current := none }, c5World1)
    ∧ ({ c5Sink1 with current := none } : File).write_all c5World1 "1" [] =
        some (.ok (), c5Sink2, c5World2)
    ∧ c5Sink1.segment_index = U64MAX ∧ c5Sink2.segment_index = 1 := by
  refine ⟨rfl, ?_, rfl, rfl, rfl, rfl⟩
  have hwa : fsWriteAll ⟨c5Path1⟩ []
      (logLine (setFile c5World c5Path1 []) .debug ("Recording to: " ++ c5Path1)) =
      .ok c5World1 := rfl
  exact write_all_create_ok freshSink c5World "0" [] ⟨c5Path1⟩
    { freshSink with segment_index := U64MAX }
    (logLine (setFile c5World c5Path1 []) .debug ("Recording to: " ++ c5Path1)) c5World1
    rfl c5_create1 hwa

/-- Claim C5 (amended): `segment_index` is 0 at construction; a
successful creation in either overwrite mode (with overwrite on there are
no retries, so `n = 0`) that collided `n` times with
`segment_index + n < u64::MAX` (no wrap of the line-99 sum, no
saturation of the store) sets it to `segment_index + n + 1` — a strict
increase — and embeds index `segment_index + n` in the created filename,
so indices stay below the new `segment_index` and are never reused while
that proviso holds; a fatally failing creation leaves the sink unchanged,
and `flush` and `set_header` never change `segment_index`.  (Without the
proviso the index sum wraps and `segment_index` can decrease, see the
counterexample.) -/
theorem C5_segment_index_monotone :
    (∀ (args : Args) (ch : String) (w : World) (s : File) (w' : World),
      File.new args ch w = (some s, w') → s.segment_index = 0)
    ∧ (∀ (s : File) (w : World) (ts : String) (n : Nat) (f : FsFile) (w1 : World)
        (f' : FsFile) (s' : File) (w' : World),
      s.overwrite = false ∨ n = 0 →
      s.segment_index + n < U64MAX →
      (∀ k, k < n → ∃ e : IoError, e.kind = .alreadyExists ∧
        fsCreate s.overwrite (s.segment_path ts ((s.segment_index + k) % 2 ^ 64)) w =
          .error e) →
      fsCreate s.overwrite (s.segment_path ts ((s.segment_index + n) % 2 ^ 64)) w =
        .ok (f, w1) →
      s.create_segment_file w ts = some (.ok f', s', w') →
      s'.segment_index = s.segment_index + n + 1 ∧ s.segment_index < s'.segment_index ∧
        f' = f)
    ∧ (∀ (s : File) (w : World) (ts : String) (e : IoError) (s' : File) (w' : World),
      s.create_segment_file w ts = some (.err e, s', w') → s' = s)
    ∧ (∀ (s : File) (w : World), ((s.flush w).2.1).segment_index = s.segment_index)
    ∧ (∀ (s : File) (h : List Nat), ((s.set_header h).2).segment_index = s.segment_index) := by
  have hU : U64MAX = 18446744073709551615 := by norm_num [U64MAX]
  have h2 : (2 : Nat) ^ 64 = 18446744073709551616 := by norm_num
  refine ⟨?_, ?_, ?_, ?_, ?_⟩
  · intro args ch w s w' h
    unfold File.new at h
    cases hp : args.path with
    | none => rw [hp] at h; simp at h
    | some p =>
      rw [hp] at h
      simp only [Prod.mk.injEq, Option.some.injEq] at h
      rw [← h.1]
  · intro s w ts n f w1 f' s' w' hmode hn hblock hok hcr
    obtain ⟨hfe, hse, _⟩ := createLoop_tail_ok s w ts n f w1 f' s' w' (by omega) hok
      (create_tail s w ts n f' s' w' hmode (by omega) hblock hcr)
    have hmod : (s.segment_index + n) % 2 ^ 64 = s.segment_index + n :=
      Nat.mod_eq_of_lt (by omega)
    have husat : usat (s.segment_index + n + 1) = s.segment_index + n + 1 := by
      simp only [usat]
      omega
    have hseg : s'.segment_index = s.segment_index + n + 1 := by
      rw [hse]
      show usat ((s.segment_index + n) % 2 ^ 64 + 1) = s.segment_index + n + 1
      rw [hmod]
      exact husat
    exact ⟨hseg, by omega, hfe⟩
  · intro s w ts e s' w' h
    exact createLoop_err_state _ s w ts 0 e s' w' h
  · intro s w
    unfold File.flush
    cases hc : s.current with
    | none => rfl
    | some f =>
      cases hf : fsFlush f w with
      | error e => simp [hf]
      | ok w' => simp [hf]
  · intro s h
    rfl

/-- Claim C5 witness: the amended theorem applied at concrete inputs — a
fresh construction, a non-overwriting creation that collided once (index
advances 0 → 2), an overwriting creation on the first try (index advances
0 → 1), a fatally failing creation (sink unchanged), and a flush. -/
theorem C5_segment_index_monotone_witness :
    freshSink.segment_index = 0
    ∧ (({ freshSink with segment_index := 2 } : File).segment_index = 0 + 1 + 1
        ∧ freshSink.segment_index < ({ freshSink with segment_index := 2 } : File).segment_index
        ∧ (⟨"x_c_0_00001.ts"⟩ : FsFile) = ⟨"x_c_0_00001.ts"⟩)
    ∧ (({ freshSink with overwrite := true, segment_index := 1 } : File).segment_index = 0 + 0 + 1
        ∧ ({ freshSink with overwrite := true } : File).segment_index <
            ({ freshSink with overwrite := true, segment_index := 1 } : File).segment_index
        ∧ (⟨"x_c_0_00000.ts"⟩ : FsFile) = ⟨"x_c_0_00000.ts"⟩)
    ∧ freshSink = freshSink
    ∧ ((openSink.flush baseWorld).2.1).segment_index = openSink.segment_index := by
  refine ⟨?_, ?_, ?_, ?_, ?_⟩
  · exact C5_segment_index_monotone.1 ⟨some "x", false⟩ "c" baseWorld freshSink
      (logLine baseWorld .info ("Recording segments to: " ++ "x")) rfl
  · exact C5_segment_index_monotone.2.1 freshSink collideWorld "0" 1 ⟨"x_c_0_00001.ts"⟩
      (setFile collideWorld "x_c_0_00001.ts" []) ⟨"x_c_0_00001.ts"⟩
      { freshSink with segment_index := 2 }
      { collideWorld with files := [("x_c_0_00000.ts", []), ("x_c_0_00001.ts", [])],
                          log := [(.debug, "Recording to: x_c_0_00001.ts")] }
      (Or.inl rfl) (by decide)
      (fun k hk => by
        interval_cases k
        exact ⟨⟨.alreadyExists⟩, rfl, rfl⟩)
      rfl rfl
  · exact C5_segment_index_monotone.2.1 { freshSink with overwrite := true } baseWorld "0" 0
      ⟨"x_c_0_00000.ts"⟩ (setFile baseWorld "x_c_0_00000.ts" []) ⟨"x_c_0_00000.ts"⟩
      { freshSink with overwrite := true, segment_index := 1 }
      { baseWorld with files := [("x_c_0_00000.ts", [])],
                       log := [(.info, "Recording to: x_c_0_00000.ts")] }
      (Or.inr rfl) (by decide)
      (fun k hk => absurd hk (by omega))
      rfl rfl
  · exact C5_segment_index_monotone.2.2.1 freshSink denyWorld "0" ⟨.permissionDenied⟩
      freshSink denyWorld rfl
  · exact C5_segment_index_monotone.2.2.2.1 openSink baseWorld

end OutputFile
